import Mathlib

/-
Verification of the client-side form-validation and theme-persistence logic of
a single-page portfolio website (source: src/src/components/Contact.tsx and
src/src/components/ThemeToggle.tsx).

Strings are modelled as `List Char`; JavaScript whitespace is approximated by
the ASCII whitespace characters, used consistently in `trim` (String.prototype.trim)
and in the email regular expression's `\s` class.
-/

namespace Portfolio

/-- ASCII approximation of the JavaScript whitespace class `\s` (also the
characters removed by `String.prototype.trim`). -/
def isSpace (c : Char) : Bool :=
  c = ' ' || c = '\t' || c = '\n' || c = '\r' || c = '\x0b' || c = '\x0c'

/-- JavaScript `value.trim()`: remove leading and trailing whitespace. -/
def trim (s : List Char) : List Char :=
  ((s.dropWhile isSpace).reverse.dropWhile isSpace).reverse

/-- A character admitted by the regex class `[^\s@]`: not whitespace, not `@`. -/
def emailChar (c : Char) : Bool :=
  !(isSpace c) && !(c = '@')

/-- Does the list contain a `.` at some position strictly before the last
position?  Helper for compiling the regex tail `[^\s@]+\.[^\s@]+`. -/
def dotBeforeLast : List Char → Bool
  | [] => false
  | [_] => false
  | c :: d :: rest => c = '.' || dotBeforeLast (d :: rest)

/-- Does the tail after the `@` match `[^\s@]+\.[^\s@]+` structurally, i.e.
contain a `.` at a position that is neither first nor last?  (The character
classes themselves are checked separately.) -/
def emailTail : List Char → Bool
  | [] => false
  | _ :: rest2 => dotBeforeLast rest2

/-- Compilation of `isValidEmail` from Contact.tsx: the test of the regular
expression `/^[^\s@]+@[^\s@]+\.[^\s@]+$/`.  Since every character class
excludes `@`, a match decomposes the string at its unique `@`: a non-empty
local part of `emailChar`s, then `@`, then a tail of `emailChar`s that
contains a `.` at a position that is neither first nor last. -/
def isValidEmail (s : List Char) : Bool :=
  match s.dropWhile (fun c => !(c = '@')) with
  | [] => false
  | _ :: rest =>
    let loc := s.takeWhile (fun c => !(c = '@'))
    !loc.isEmpty && loc.all emailChar && rest.all emailChar && emailTail rest

def keyName : String := "name"
def keyEmail : String := "email"
def keyMessage : String := "message"

def msgNameReq : String := "Name is required"
def msgNameLen : String := "Name must be at least 2 characters"
def msgEmailReq : String := "Email is required"
def msgEmailInv : String := "Please enter a valid email address"
def msgMessageReq : String := "Message is required"
def msgMessageLen : String := "Message must be at least 10 characters"

/-- Model of `validateField` from Contact.tsx: the switch on the field name, returning
the first failing rule's message or none. -/
def validateField (name : String) (value : List Char) : Option String :=
  if name = keyName then
    if trim value = [] then some msgNameReq
    else if (trim value).length < 2 then some msgNameLen
    else none
  else if name = keyEmail then
    if trim value = [] then some msgEmailReq
    else if !(isValidEmail value) then some msgEmailInv
    else none
  else if name = keyMessage then
    if trim value = [] then some msgMessageReq
    else if (trim value).length < 10 then some msgMessageLen
    else none
  else none

/-- The three form fields of `FormData` in Contact.tsx. -/
inductive Field
  | name
  | email
  | message
deriving DecidableEq

/-- The string key of a field, as passed to `validateField`. -/
def Field.key : Field → String
  | .name => keyName
  | .email => keyEmail
  | .message => keyMessage

/-- Model of `FormData` from Contact.tsx: the three string-valued fields. -/
structure FormData where
  name : List Char
  email : List Char
  message : List Char
deriving DecidableEq

def FormData.get (fd : FormData) : Field → List Char
  | .name => fd.name
  | .email => fd.email
  | .message => fd.message

def FormData.set (fd : FormData) : Field → List Char → FormData
  | .name, v => { fd with name := v }
  | .email, v => { fd with email := v }
  | .message, v => { fd with message := v }

/-- Model of `FormErrors` from Contact.tsx: each field optionally maps to an error
message; `none` models the key being absent from the errors object. -/
structure FormErrors where
  name : Option String
  email : Option String
  message : Option String
deriving DecidableEq

def FormErrors.get (e : FormErrors) : Field → Option String
  | .name => e.name
  | .email => e.email
  | .message => e.message

def FormErrors.set (e : FormErrors) : Field → Option String → FormErrors
  | .name, v => { e with name := v }
  | .email, v => { e with email := v }
  | .message, v => { e with message := v }

def noErrors : FormErrors := ⟨none, none, none⟩

/-- The `touched` record: which fields have been blurred at least once. -/
structure Touched where
  name : Bool
  email : Bool
  message : Bool
deriving DecidableEq

def Touched.get (t : Touched) : Field → Bool
  | .name => t.name
  | .email => t.email
  | .message => t.message

def Touched.set (t : Touched) : Field → Bool → Touched
  | .name, b => { t with name := b }
  | .email, b => { t with email := b }
  | .message, b => { t with message := b }

def noneTouched : Touched := ⟨false, false, false⟩

def allTouched : Touched := ⟨true, true, true⟩

/-- Model of `FormStatus` from Contact.tsx. -/
inductive FormStatus
  | idle
  | submitting
  | success
  | error
deriving DecidableEq

/-- Model of `validateForm` from Contact.tsx: validates all three fields (iterating the
keys of `formData`), collects exactly the failing fields into a fresh errors
object, and reports whether that object is empty.  Returns the new errors
object together with the boolean result. -/
def validateForm (fd : FormData) : FormErrors × Bool :=
  let e : FormErrors :=
    { name := validateField keyName fd.name
      email := validateField keyEmail fd.email
      message := validateField keyMessage fd.message }
  (e, e.name.isNone && e.email.isNone && e.message.isNone)

/-- The delay (in milliseconds) before the status is automatically reset to
idle: `setTimeout(() => setStatus('idle'), 5000)`. -/
def resetDelay : Nat := 5000

/-- The component state of the contact form: form data, errors, touched set,
submission status, and the optional pending status-reset timer (delay in
milliseconds). -/
structure ContactState where
  formData : FormData
  errors : FormErrors
  touched : Touched
  status : FormStatus
  pendingReset : Option Nat
deriving DecidableEq

def emptyFormData : FormData := ⟨[], [], []⟩

/-- The initial component state. -/
def initialState : ContactState :=
  { formData := emptyFormData
    errors := noErrors
    touched := noneTouched
    status := FormStatus.idle
    pendingReset := none }

/-- Model of `handleChange` from Contact.tsx: store the new value; if the field was
previously touched, re-validate it and update its error entry. -/
def handleChange (s : ContactState) (f : Field) (v : List Char) : ContactState :=
  let s1 := { s with formData := s.formData.set f v }
  if s.touched.get f then
    { s1 with errors := s1.errors.set f (validateField f.key v) }
  else s1

/-- Model of `handleBlur` from Contact.tsx: mark the field as touched and re-validate
it unconditionally. -/
def handleBlur (s : ContactState) (f : Field) (v : List Char) : ContactState :=
  { s with
    touched := s.touched.set f true
    errors := s.errors.set f (validateField f.key v) }

/-- The synchronous part of a submit attempt.  The submit button is rendered
with `disabled={status === 'submitting'}`, so a press while submitting does
nothing.  Otherwise `handleSubmit` marks all fields as touched, replaces the
errors with the result of `validateForm`, and aborts if invalid; if valid it
sets the status to submitting and starts the send.  The boolean reports
whether a send was started. -/
def pressSubmit (s : ContactState) : ContactState × Bool :=
  if s.status = FormStatus.submitting then (s, false)
  else if (validateForm s.formData).2 = true then
    ({ s with
        touched := allTouched
        errors := (validateForm s.formData).1
        status := FormStatus.submitting },
      true)
  else ({ s with touched := allTouched, errors := (validateForm s.formData).1 }, false)

/-- The simulated send operation from `handleSubmit`:
`await new Promise((resolve) => setTimeout(resolve, 1500))` — a promise that
always resolves and never rejects, so the result is always ok. -/
def simulateSend : Except Unit Unit := Except.ok ()

/-- The success continuation of `handleSubmit`: status becomes success, the
form data, touched set and errors are all cleared, and a 5000 ms reset of the
status back to idle is scheduled. -/
def sendSucceedCont (s : ContactState) : ContactState :=
  { s with
    status := FormStatus.success
    formData := emptyFormData
    touched := noneTouched
    errors := noErrors
    pendingReset := some resetDelay }

/-- The catch branch of `handleSubmit`: status becomes error, the form data is
left intact, and the same 5000 ms reset to idle is scheduled. -/
def sendFailCont (s : ContactState) : ContactState :=
  { s with status := FormStatus.error, pendingReset := some resetDelay }

/-- Completion of the in-flight send: dispatch on the outcome of
`simulateSend`.  Only meaningful while submitting. -/
def resolveSend (s : ContactState) : ContactState :=
  if s.status = FormStatus.submitting then
    match simulateSend with
    | Except.ok _ => sendSucceedCont s
    | Except.error _ => sendFailCont s
  else s

/-- Firing of the scheduled status-reset timer: `setStatus('idle')`. -/
def fireResetTimer (s : ContactState) : ContactState :=
  match s.pendingReset with
  | some _ => { s with status := FormStatus.idle, pendingReset := none }
  | none => s

/-- The user-interface and timer events that drive the contact form. -/
inductive Event
  | change (f : Field) (v : List Char)
  | blur (f : Field) (v : List Char)
  | submit
  | sendDone
  | timer

/-- One step of the contact-form component: dispatch an event. -/
def step (s : ContactState) : Event → ContactState
  | .change f v => handleChange s f v
  | .blur f v => handleBlur s f v
  | .submit => (pressSubmit s).1
  | .sendDone => resolveSend s
  | .timer => fireResetTimer s

/-- The reachable states of the contact-form component. -/
inductive Reachable : ContactState → Prop
  | init : Reachable initialState
  | next {s : ContactState} (e : Event) : Reachable s → Reachable (step s e)

/-- The render guard for a field's error text in the JSX:
`errors.f && touched.f && <span>…</span>`. -/
def errorDisplayed (s : ContactState) (f : Field) : Bool :=
  (s.errors.get f).isSome && s.touched.get f

/-- The two themes of ThemeToggle.tsx. -/
inductive Theme
  | light
  | dark
deriving DecidableEq

/-- Model of `theme === 'light' ? 'dark' : 'light'` from `toggleTheme`. -/
def Theme.flip : Theme → Theme
  | .light => .dark
  | .dark => .light

/-- Model of `prefersDark ? 'dark' : 'light'`: the theme derived from the environment's
dark-mode signal. -/
def envTheme (prefersDark : Bool) : Theme :=
  if prefersDark then Theme.dark else Theme.light

/-- The world of ThemeToggle.tsx: the persisted localStorage slot, the
environment's dark-mode signal, the in-memory React theme state, and the
`data-theme` attribute on the document element (none before first applied). -/
structure ThemeWorld where
  saved : Option Theme
  prefersDark : Bool
  theme : Theme
  applied : Option Theme
deriving DecidableEq

/-- The mount effect of ThemeToggle.tsx: read the persisted slot; if present,
adopt and apply it; otherwise query the environment signal, adopt and apply
the derived value without persisting it. -/
def initTheme (w : ThemeWorld) : ThemeWorld :=
  match w.saved with
  | some t => { w with theme := t, applied := some t }
  | none =>
    let t := envTheme w.prefersDark
    { w with theme := t, applied := some t }

/-- Model of `toggleTheme` from ThemeToggle.tsx: flip the theme, persist it, apply it. -/
def toggleTheme (w : ThemeWorld) : ThemeWorld :=
  let t := w.theme.flip
  { w with theme := t, saved := some t, applied := some t }

/-- Model of `handleChange` from ThemeToggle.tsx (the media-query listener): when the
environment signal changes, adopt and apply the new derived value only if no
persisted preference exists. -/
def onEnvChange (w : ThemeWorld) (b : Bool) : ThemeWorld :=
  let w1 := { w with prefersDark := b }
  if w1.saved = none then
    let t := envTheme b
    { w1 with theme := t, applied := some t }
  else w1

/-- A validation rule: a passing predicate together with the message reported
when it fails.  Used to state the spec's per-field rules table. -/
def Rule : Type := (List Char → Bool) × String

/-- First-failure semantics of the spec's rules table: apply the rules in
order and return the first failing rule's message, or none if all pass. -/
def firstFailing : List Rule → List Char → Option String
  | [], _ => none
  | (p, m) :: rest, v => if p v = true then firstFailing rest v else some m

/-- The spec's rules table for `name`: non-empty after trimming, then trimmed
length at least 2. -/
def nameRules : List Rule :=
  [(fun v => !(trim v).isEmpty, msgNameReq),
   (fun v => decide (2 ≤ (trim v).length), msgNameLen)]

/-- The spec's rules table for `email`: non-empty after trimming, then the
email pattern (checked on the untrimmed value, as in the source). -/
def emailRules : List Rule :=
  [(fun v => !(trim v).isEmpty, msgEmailReq),
   (fun v => isValidEmail v, msgEmailInv)]

/-- The spec's rules table for `message`: non-empty after trimming, then
trimmed length at least 10. -/
def messageRules : List Rule :=
  [(fun v => !(trim v).isEmpty, msgMessageReq),
   (fun v => decide (10 ≤ (trim v).length), msgMessageLen)]

/-- The spec's description of the email pattern `local@domain.tld`: a
non-empty local part, a single `@`, and at least one `.` after it separating a
non-empty domain from a non-empty tld, with no whitespace anywhere. -/
def specEmailShape (s : List Char) : Prop :=
  ∃ loc dom tld : List Char,
    s = loc ++ '@' :: (dom ++ '.' :: tld) ∧
    loc ≠ [] ∧ dom ≠ [] ∧ tld ≠ [] ∧
    (∀ c ∈ s, isSpace c = false) ∧
    s.count '@' = 1

lemma dotBeforeLast_iff (xs : List Char) :
    dotBeforeLast xs = true ↔ ∃ a b : List Char, xs = a ++ '.' :: b ∧ b ≠ [] := by
  induction xs with
  | nil =>
    refine iff_of_false (by simp [dotBeforeLast]) ?_
    rintro ⟨a, b, h, hb⟩
    exact absurd h.symm (by simp)
  | cons c rest ih =>
    cases rest with
    | nil =>
      refine iff_of_false (by simp [dotBeforeLast]) ?_
      rintro ⟨a, b, h, hb⟩
      cases b with
      | nil => exact hb rfl
      | cons x xs =>
        have hl := congrArg List.length h
        simp [List.length_append] at hl
        omega
    | cons d rest2 =>
      show ((c = '.') || dotBeforeLast (d :: rest2)) = true ↔ _
      rw [Bool.or_eq_true]
      constructor
      · rintro (hc | hrec)
        · exact ⟨[], d :: rest2, by simpa using of_decide_eq_true hc, by simp⟩
        · obtain ⟨a, b, hab, hb⟩ := ih.mp hrec
          exact ⟨c :: a, b, by rw [List.cons_append, ← hab], hb⟩
      · rintro ⟨a, b, hab, hb⟩
        cases a with
        | nil =>
          left
          simp only [List.nil_append, List.cons.injEq] at hab
          simp [hab.1]
        | cons a0 a' =>
          right
          simp only [List.cons_append, List.cons.injEq] at hab
          exact ih.mpr ⟨a', b, hab.2, hb⟩

lemma dropWhile_head_false {α : Type} {p : α → Bool} {l : List α} {a : α} {r : List α}
    (h : l.dropWhile p = a :: r) : p a = false := by
  induction l with
  | nil => simp at h
  | cons x xs ih =>
    rw [List.dropWhile_cons] at h
    split at h
    · exact ih h
    · rename_i hx
      injection h with h1 _
      subst h1
      exact Bool.eq_false_iff.mpr hx

lemma emailChar_not_space {c : Char} (h : emailChar c = true) : isSpace c = false := by
  simp only [emailChar, Bool.and_eq_true, Bool.not_eq_true'] at h
  exact h.1

lemma emailChar_ne_at {c : Char} (h : emailChar c = true) : c ≠ '@' := by
  simp only [emailChar, Bool.and_eq_true, Bool.not_eq_true'] at h
  simpa using h.2

lemma emailChar_of {c : Char} (hs : isSpace c = false) (ha : c ≠ '@') :
    emailChar c = true := by
  simp [emailChar, hs, ha]

lemma count_at_zero {l : List Char} (h : ∀ c ∈ l, emailChar c = true) :
    l.count '@' = 0 := by
  rw [List.count_eq_zero]
  intro hmem
  exact emailChar_ne_at (h _ hmem) rfl

/-- The compiled email matcher agrees with the spec's description of the
pattern `local@domain.tld`. -/
lemma isValidEmail_iff_spec (s : List Char) :
    isValidEmail s = true ↔ specEmailShape s := by
  constructor
  · intro hv
    unfold isValidEmail at hv
    split at hv
    · exact absurd hv (by simp)
    · rename_i a rest heq
      have hs : s.takeWhile (fun c => !(c = '@')) ++ a :: rest = s := by
        rw [← heq]
        exact List.takeWhile_append_dropWhile _ _
      have ha : a = '@' := by
        have := dropWhile_head_false heq
        simpa using this
      simp only [Bool.and_eq_true, List.all_eq_true, Bool.not_eq_true',
        List.isEmpty_eq_false] at hv
      obtain ⟨⟨⟨hloc, hlocall⟩, hrestall⟩, htail⟩ := hv
      subst ha
      cases rest with
      | nil => simp [emailTail] at htail
      | cons r0 rest2 =>
        obtain ⟨a', b, hab, hb⟩ := (dotBeforeLast_iff rest2).mp (by simpa [emailTail] using htail)
        subst hab
        refine ⟨s.takeWhile (fun c => !(c = '@')), r0 :: a', b, hs.symm, hloc, by simp, hb,
          ?_, ?_⟩
        · intro c hc
          rw [← hs] at hc
          rcases List.mem_append.mp hc with hc | hc
          · exact emailChar_not_space (hlocall _ hc)
          · rcases List.mem_cons.mp hc with hc | hc
            · subst hc; decide
            · exact emailChar_not_space (hrestall _ hc)
        · rw [← hs]
          simp [List.count_append, List.count_cons_self,
            count_at_zero hlocall, count_at_zero hrestall]
  · rintro ⟨loc, dom, tld, hs, hloc, hdom, htld, hns, hcount⟩
    have hcount' : loc.count '@' = 0 ∧ (dom ++ '.' :: tld).count '@' = 0 := by
      rw [hs] at hcount
      rw [List.count_append, List.count_cons_self] at hcount
      constructor <;> omega
    have hnotat : ∀ c ∈ loc, c ≠ '@' := by
      intro c hc hne
      subst hne
      exact absurd (List.count_eq_zero.mp hcount'.1) (by simp [hc])
    have hnotat2 : ∀ c ∈ dom ++ '.' :: tld, c ≠ '@' := by
      intro c hc hne
      subst hne
      exact absurd (List.count_eq_zero.mp hcount'.2) (by simp [hc])
    have hlocall : ∀ c ∈ loc, emailChar c = true := by
      intro c hc
      exact emailChar_of (hns c (by rw [hs]; exact List.mem_append.mpr (Or.inl hc)))
        (hnotat c hc)
    have hrestall : ∀ c ∈ dom ++ '.' :: tld, emailChar c = true := by
      intro c hc
      refine emailChar_of (hns c ?_) (hnotat2 c hc)
      rw [hs]
      exact List.mem_append.mpr (Or.inr (List.mem_cons.mpr (Or.inr hc)))
    have htake : s.takeWhile (fun c => !(c = '@')) = loc := by
      rw [hs, List.takeWhile_append_of_pos (by intro c hc; simpa using hnotat c hc)]
      simp [List.takeWhile_cons]
    have hdrop : s.dropWhile (fun c => !(c = '@')) = '@' :: (dom ++ '.' :: tld) := by
      rw [hs, List.dropWhile_append_of_pos (by intro c hc; simpa using hnotat c hc)]
      simp [List.dropWhile_cons]
    unfold isValidEmail
    split
    · rename_i heq
      rw [hdrop] at heq
      simp at heq
    · rename_i a rest heq
      rw [hdrop] at heq
      injection heq with h1 h2
      subst h2
      rw [htake]
      simp only [Bool.and_eq_true, List.all_eq_true, Bool.not_eq_true',
        List.isEmpty_eq_false]
      refine ⟨⟨⟨hloc, hlocall⟩, hrestall⟩, ?_⟩
      cases dom with
      | nil => exact absurd rfl hdom
      | cons d0 dom' =>
        show emailTail (d0 :: (dom' ++ '.' :: tld)) = true
        show dotBeforeLast (dom' ++ '.' :: tld) = true
        exact (dotBeforeLast_iff _).mpr ⟨dom', tld, rfl, htld⟩

lemma touched_get_set (t : Touched) (f f' : Field) (b : Bool) :
    (t.set f b).get f' = if f' = f then b else t.get f' := by
  cases f <;> cases f' <;> simp [Touched.set, Touched.get]

lemma formErrors_get_set (e : FormErrors) (f f' : Field) (v : Option String) :
    (e.set f v).get f' = if f' = f then v else e.get f' := by
  cases f <;> cases f' <;> simp [FormErrors.set, FormErrors.get]

lemma handleChange_status (s : ContactState) (f : Field) (v : List Char) :
    (handleChange s f v).status = s.status := by
  unfold handleChange
  split <;> rfl

lemma handleChange_touched (s : ContactState) (f : Field) (v : List Char) :
    (handleChange s f v).touched = s.touched := by
  unfold handleChange
  split <;> rfl

lemma handleChange_errors (s : ContactState) (f : Field) (v : List Char) :
    (handleChange s f v).errors = s.errors ∨
      (s.touched.get f = true ∧
        (handleChange s f v).errors = s.errors.set f (validateField f.key v)) := by
  unfold handleChange
  split
  · rename_i hg
    exact Or.inr ⟨hg, rfl⟩
  · exact Or.inl rfl

lemma handleBlur_touched (s : ContactState) (f : Field) (v : List Char) :
    (handleBlur s f v).touched = s.touched.set f true := rfl

lemma handleBlur_errors (s : ContactState) (f : Field) (v : List Char) :
    (handleBlur s f v).errors = s.errors.set f (validateField f.key v) := rfl

lemma pressSubmit_cases (s : ContactState) :
    (s.status = FormStatus.submitting ∧ pressSubmit s = (s, false)) ∨
    (s.status ≠ FormStatus.submitting ∧
      (pressSubmit s).1.touched = allTouched ∧
      (pressSubmit s).1.errors = (validateForm s.formData).1 ∧
      (pressSubmit s).1.formData = s.formData ∧
      ((pressSubmit s).1.status = s.status ∨
        (pressSubmit s).1.status = FormStatus.submitting)) := by
  unfold pressSubmit
  split
  · rename_i hg
    exact Or.inl ⟨hg, rfl⟩
  · rename_i hg
    split
    · exact Or.inr ⟨hg, rfl, rfl, rfl, Or.inr rfl⟩
    · exact Or.inr ⟨hg, rfl, rfl, rfl, Or.inl rfl⟩

lemma resolveSend_cases (s : ContactState) :
    resolveSend s = s ∨ resolveSend s = sendSucceedCont s := by
  unfold resolveSend
  split
  · exact Or.inr rfl
  · exact Or.inl rfl

lemma fireResetTimer_cases (s : ContactState) :
    fireResetTimer s = s ∨
      fireResetTimer s = { s with status := FormStatus.idle, pendingReset := none } := by
  unfold fireResetTimer
  split
  · exact Or.inr rfl
  · exact Or.inl rfl

/-- The state invariant behind the render guard: a field has a recorded error
only if it has been touched. -/
def errorsImpTouched (s : ContactState) : Prop :=
  ∀ f : Field, (s.errors.get f).isSome = true → s.touched.get f = true

lemma errorsImpTouched_step {s : ContactState} (h : errorsImpTouched s) (e : Event) :
    errorsImpTouched (step s e) := by
  cases e with
  | change f v =>
    show errorsImpTouched (handleChange s f v)
    intro f' hf'
    rw [handleChange_touched]
    rcases handleChange_errors s f v with he | ⟨hg, he⟩
    · rw [he] at hf'
      exact h f' hf'
    · rw [he, formErrors_get_set] at hf'
      by_cases hff : f' = f
      · rw [hff]
        exact hg
      · rw [if_neg hff] at hf'
        exact h f' hf'
  | blur f v =>
    show errorsImpTouched (handleBlur s f v)
    intro f' hf'
    rw [handleBlur_errors, formErrors_get_set] at hf'
    rw [handleBlur_touched, touched_get_set]
    by_cases hff : f' = f
    · rw [if_pos hff]
    · rw [if_neg hff] at hf' ⊢
      exact h f' hf'
  | submit =>
    show errorsImpTouched (pressSubmit s).1
    rcases pressSubmit_cases s with ⟨_, he⟩ | ⟨_, ht, _, _, _⟩
    · rw [he]
      exact h
    · intro f' _
      rw [ht]
      cases f' <;> rfl
  | sendDone =>
    show errorsImpTouched (resolveSend s)
    rcases resolveSend_cases s with he | he
    · rw [he]
      exact h
    · rw [he]
      intro f' hf'
      cases f' <;> simp [sendSucceedCont, noErrors, FormErrors.get] at hf'
  | timer =>
    show errorsImpTouched (fireResetTimer s)
    rcases fireResetTimer_cases s with he | he <;> rw [he] <;> exact h

lemma errorsImpTouched_reachable {s : ContactState} (h : Reachable s) :
    errorsImpTouched s := by
  induction h with
  | init =>
    intro f' hf'
    cases f' <;> simp [initialState, noErrors, FormErrors.get] at hf'
  | next e _ ih => exact errorsImpTouched_step ih e

lemma step_status_ne_error {s : ContactState} (h : s.status ≠ FormStatus.error)
    (e : Event) : (step s e).status ≠ FormStatus.error := by
  cases e with
  | change f v =>
    show (handleChange s f v).status ≠ _
    rw [handleChange_status]
    exact h
  | blur f v => exact h
  | submit =>
    show (pressSubmit s).1.status ≠ _
    rcases pressSubmit_cases s with ⟨_, he⟩ | ⟨_, _, _, _, hst | hst⟩
    · rw [he]
      exact h
    · rw [hst]
      exact h
    · rw [hst]
      simp
  | sendDone =>
    show (resolveSend s).status ≠ _
    rcases resolveSend_cases s with he | he <;> rw [he]
    · exact h
    · simp [sendSucceedCont]
  | timer =>
    show (fireResetTimer s).status ≠ _
    rcases fireResetTimer_cases s with he | he <;> rw [he]
    · exact h
    · simp

lemma trim_nonempty_cond (v : List Char) :
    ((!(trim v).isEmpty) = true) ↔ ¬(trim v = []) := by
  simp

lemma firstFailing_nil (v : List Char) : firstFailing [] v = none := rfl

lemma firstFailing_cons (p : List Char → Bool) (m : String) (rest : List Rule)
    (v : List Char) :
    firstFailing ((p, m) :: rest) v = if p v = true then firstFailing rest v else some m :=
  rfl

/-- C1: for every field name in {name, email, message} and every string value,
`validateField` applies that field's two rules in order and returns the first
failing rule's message, or none if both pass: name requires non-empty after
trimming then trimmed length at least 2; email requires non-empty after
trimming then a match of the pattern local@domain.tld (no whitespace, one `@`,
at least one `.` after it); message requires non-empty after trimming then
trimmed length at least 10.  The last conjunct identifies the email matcher
with the spec's description of the pattern. -/
theorem c1_validateField_first_failing_rule :
    (∀ v, validateField keyName v = firstFailing nameRules v) ∧
    (∀ v, validateField keyEmail v = firstFailing emailRules v) ∧
    (∀ v, validateField keyMessage v = firstFailing messageRules v) ∧
    (∀ v, isValidEmail v = true ↔ specEmailShape v) := by
  refine ⟨?_, ?_, ?_, isValidEmail_iff_spec⟩
  · intro v
    unfold validateField
    rw [if_pos rfl]
    simp only [nameRules, firstFailing_cons, firstFailing_nil]
    by_cases h1 : trim v = []
    · rw [if_pos h1, if_neg (by simp [h1])]
    · rw [if_neg h1, if_pos ((trim_nonempty_cond v).mpr h1)]
      by_cases h2 : (trim v).length < 2
      · rw [if_pos h2, if_neg (by simp only [decide_eq_true_eq]; omega)]
      · rw [if_neg h2, if_pos (by simp only [decide_eq_true_eq]; omega)]
  · intro v
    unfold validateField
    rw [if_neg (by decide), if_pos rfl]
    simp only [emailRules, firstFailing_cons, firstFailing_nil]
    by_cases h1 : trim v = []
    · rw [if_pos h1, if_neg (by simp [h1])]
    · rw [if_neg h1, if_pos ((trim_nonempty_cond v).mpr h1)]
      cases h2 : isValidEmail v
      · rw [if_pos (by simp [h2]), if_neg (by simp [h2])]
      · rw [if_neg (by simp [h2]), if_pos rfl]
  · intro v
    unfold validateField
    rw [if_neg (by decide), if_neg (by decide), if_pos rfl]
    simp only [messageRules, firstFailing_cons, firstFailing_nil]
    by_cases h1 : trim v = []
    · rw [if_pos h1, if_neg (by simp [h1])]
    · rw [if_neg h1, if_pos ((trim_nonempty_cond v).mpr h1)]
      by_cases h2 : (trim v).length < 10
      · rw [if_pos h2, if_neg (by simp only [decide_eq_true_eq]; omega)]
      · rw [if_neg h2, if_pos (by simp only [decide_eq_true_eq]; omega)]

/-- C2: for every record, `validateForm` produces an error map holding exactly
the fields on which `validateField` fails, and returns true iff every one of
the three fields individually passes (equivalently, iff the resulting error
map is empty). -/
theorem c2_validateForm_exact_failures (fd : FormData) :
    ((validateForm fd).2 = true ↔
      (validateField keyName fd.name = none ∧ validateField keyEmail fd.email = none ∧
        validateField keyMessage fd.message = none)) ∧
    (validateForm fd).1 =
      ⟨validateField keyName fd.name, validateField keyEmail fd.email,
        validateField keyMessage fd.message⟩ ∧
    ((validateForm fd).2 = true ↔ (validateForm fd).1 = noErrors) := by
  unfold validateForm
  refine ⟨?_, rfl, ?_⟩
  · simp [Bool.and_eq_true, Option.isNone_iff_eq_none, and_assoc]
  · simp [noErrors, Bool.and_eq_true, Option.isNone_iff_eq_none, FormErrors.mk.injEq, and_assoc]

/-- C10: for every field name outside {name, email, message} and every string
value, `validateField` falls through the switch and returns none. -/
theorem c10_unknown_field_accepted (f : String) (v : List Char)
    (h1 : f ≠ keyName) (h2 : f ≠ keyEmail) (h3 : f ≠ keyMessage) :
    validateField f v = none := by
  unfold validateField
  rw [if_neg h1, if_neg h2, if_neg h3]

/-- Witness for C10 at the concrete field name "subject". -/
theorem c10_witness : validateField ("subject" : String) [] = none :=
  c10_unknown_field_accepted ("subject" : String) [] (by decide) (by decide) (by decide)

/-- C3: for every record that fails validation, a submit from the idle state
marks all three fields as touched, starts no send, leaves the status at idle,
replaces the error map with all current failures, and leaves the record
unchanged. -/
theorem c3_invalid_submit_blocked (s : ContactState) (h : s.status = FormStatus.idle)
    (hv : (validateForm s.formData).2 = false) :
    (pressSubmit s).1.touched = allTouched ∧
    (pressSubmit s).2 = false ∧
    (pressSubmit s).1.status = FormStatus.idle ∧
    (pressSubmit s).1.errors = (validateForm s.formData).1 ∧
    (pressSubmit s).1.formData = s.formData := by
  unfold pressSubmit
  rw [if_neg (by rw [h]; intro hh; exact FormStatus.noConfusion hh),
    if_neg (by rw [hv]; intro hh; exact Bool.noConfusion hh)]
  exact ⟨rfl, rfl, h, rfl, rfl⟩

def c3record : FormData := ⟨[], ("a@b.com").toList, ("hello there").toList⟩

def c3state : ContactState := { initialState with formData := c3record }

/-- Witness for C3: submitting {name:"", email:"a@b.com", message:"hello there"}
is blocked with an error recorded only for the name field. -/
theorem c3_witness :
    ((pressSubmit c3state).1.touched = allTouched ∧
      (pressSubmit c3state).2 = false ∧
      (pressSubmit c3state).1.status = FormStatus.idle ∧
      (pressSubmit c3state).1.errors = (validateForm c3state.formData).1 ∧
      (pressSubmit c3state).1.formData = c3state.formData) ∧
    (validateForm c3state.formData).1 = ⟨some msgNameReq, none, none⟩ :=
  ⟨c3_invalid_submit_blocked c3state rfl (by decide), by decide⟩

/-- C4: for every valid submission (the send always succeeds), submit moves
the status from idle to submitting; completion of the send moves it to
success and, in that same transition, resets the record, the error map and
the touched set to their initial empty values and schedules the automatic
reset of the status to idle after the fixed 5000 ms (5 s) delay; firing that
timer yields the idle status. -/
theorem c4_valid_submit_success (s : ContactState) (h : s.status = FormStatus.idle)
    (hv : (validateForm s.formData).2 = true) :
    (pressSubmit s).2 = true ∧
    (pressSubmit s).1.status = FormStatus.submitting ∧
    (resolveSend (pressSubmit s).1).status = FormStatus.success ∧
    (resolveSend (pressSubmit s).1).formData = emptyFormData ∧
    (resolveSend (pressSubmit s).1).errors = noErrors ∧
    (resolveSend (pressSubmit s).1).touched = noneTouched ∧
    (resolveSend (pressSubmit s).1).pendingReset = some resetDelay ∧
    (fireResetTimer (resolveSend (pressSubmit s).1)).status = FormStatus.idle := by
  have h1 : pressSubmit s =
      ({ s with
          touched := allTouched
          errors := (validateForm s.formData).1
          status := FormStatus.submitting },
        true) := by
    unfold pressSubmit
    rw [if_neg (by rw [h]; intro hh; exact FormStatus.noConfusion hh), if_pos hv]
  rw [h1]
  have h2 : resolveSend
      { s with
        touched := allTouched
        errors := (validateForm s.formData).1
        status := FormStatus.submitting } =
      { s with
        touched := noneTouched
        errors := noErrors
        status := FormStatus.success
        formData := emptyFormData
        pendingReset := some resetDelay } := by
    unfold resolveSend
    rw [if_pos rfl]
    rfl
  rw [h2]
  exact ⟨rfl, rfl, rfl, rfl, rfl, rfl, rfl, rfl⟩

def c4record : FormData :=
  ⟨("Jo Lee").toList, ("jo@example.com").toList, ("This is a valid message.").toList⟩

def c4state : ContactState := { initialState with formData := c4record }

/-- Witness for C4 at a concrete valid record. -/
theorem c4_witness :
    (pressSubmit c4state).2 = true ∧
    (pressSubmit c4state).1.status = FormStatus.submitting ∧
    (resolveSend (pressSubmit c4state).1).status = FormStatus.success ∧
    (resolveSend (pressSubmit c4state).1).formData = emptyFormData ∧
    (resolveSend (pressSubmit c4state).1).errors = noErrors ∧
    (resolveSend (pressSubmit c4state).1).touched = noneTouched ∧
    (resolveSend (pressSubmit c4state).1).pendingReset = some resetDelay ∧
    (fireResetTimer (resolveSend (pressSubmit c4state).1)).status = FormStatus.idle :=
  c4_valid_submit_success c4state rfl (by decide)

/-- C5: a submit while the status is submitting is a no-op — the trigger is
disabled, so no send is started and the state does not change. -/
theorem c5_submit_while_submitting_noop (s : ContactState)
    (h : s.status = FormStatus.submitting) :
    pressSubmit s = (s, false) ∧ step s Event.submit = s := by
  have h1 : pressSubmit s = (s, false) := by
    unfold pressSubmit
    rw [if_pos h]
  exact ⟨h1, by show (pressSubmit s).1 = s; rw [h1]⟩

def c5state : ContactState := { initialState with status := FormStatus.submitting }

/-- Witness for C5 at a concrete submitting state. -/
theorem c5_witness : pressSubmit c5state = (c5state, false) ∧
    step c5state Event.submit = c5state :=
  c5_submit_while_submitting_noop c5state rfl

/-- C8: in every reachable form state, the error text is rendered for a field
only when an error is recorded for that field and the field is touched; in
particular (the invariant) an error can only be recorded for a touched
field. -/
theorem c8_error_shown_only_if_touched (s : ContactState) (h : Reachable s) (f : Field) :
    (errorDisplayed s f = true → (s.errors.get f).isSome = true ∧ s.touched.get f = true) ∧
    ((s.errors.get f).isSome = true → s.touched.get f = true) := by
  refine ⟨?_, errorsImpTouched_reachable h f⟩
  intro hd
  unfold errorDisplayed at hd
  exact (Bool.and_eq_true _ _).mp hd

def c8state : ContactState := step initialState (Event.blur Field.name [])

/-- Witness for C8 at the reachable state obtained by blurring the empty name
field, in which an error is actually displayed. -/
theorem c8_witness :
    ((errorDisplayed c8state Field.name = true →
        (c8state.errors.get Field.name).isSome = true ∧
        c8state.touched.get Field.name = true) ∧
      ((c8state.errors.get Field.name).isSome = true →
        c8state.touched.get Field.name = true)) ∧
    errorDisplayed c8state Field.name = true :=
  ⟨c8_error_shown_only_if_touched c8state
      (Reachable.next (Event.blur Field.name []) Reachable.init) Field.name,
    by decide⟩

/-- C9: the simulated send always succeeds, so the failure branch is dead: no
reachable state has the error status, and completing a send either leaves the
state unchanged or applies the success continuation (never the error one). -/
theorem c9_error_branch_unreachable (s : ContactState) (h : Reachable s) :
    s.status ≠ FormStatus.error ∧
    (resolveSend s = s ∨ resolveSend s = sendSucceedCont s) := by
  refine ⟨?_, resolveSend_cases s⟩
  induction h with
  | init => intro hh; exact FormStatus.noConfusion hh
  | next e _ ih => exact step_status_ne_error ih e

/-- Witness for C9 at the initial state. -/
theorem c9_witness :
    initialState.status ≠ FormStatus.error ∧
    (resolveSend initialState = initialState ∨
      resolveSend initialState = sendSucceedCont initialState) :=
  c9_error_branch_unreachable initialState Reachable.init

/-- C6: initialization reads the persisted slot and never writes it; if a
value is present it is adopted and applied and the result is independent of
the environment signal; if absent, the environment-derived value is adopted
and applied (and the slot stays empty); after a toggle, a fresh
initialization adopts the persisted value regardless of the environment
signal. -/
theorem c6_init_reads_persisted_slot (w : ThemeWorld) :
    (initTheme w).saved = w.saved ∧
    (∀ t, w.saved = some t →
      (initTheme w).theme = t ∧ (initTheme w).applied = some t ∧
      ∀ b, initTheme { w with prefersDark := b } = { initTheme w with prefersDark := b }) ∧
    (w.saved = none →
      (initTheme w).theme = envTheme w.prefersDark ∧
      (initTheme w).applied = some (envTheme w.prefersDark)) ∧
    (∀ b, (initTheme { toggleTheme w with prefersDark := b }).theme = Theme.flip w.theme) := by
  cases hsv : w.saved with
  | some t0 =>
    refine ⟨?_, ?_, ?_, ?_⟩
    · simp [initTheme, hsv]
    · intro t ht
      injection ht with ht
      subst ht
      exact ⟨by simp [initTheme, hsv], by simp [initTheme, hsv],
        fun b => by simp [initTheme, hsv]⟩
    · intro hn
      exact Option.noConfusion hn
    · intro b
      simp [initTheme, toggleTheme]
  | none =>
    refine ⟨?_, ?_, ?_, ?_⟩
    · simp [initTheme, hsv]
    · intro t ht
      exact Option.noConfusion ht
    · intro _
      exact ⟨by simp [initTheme, hsv], by simp [initTheme, hsv]⟩
    · intro b
      simp [initTheme, toggleTheme]

def c6world : ThemeWorld := ⟨some Theme.dark, false, Theme.light, none⟩

/-- Witness for C6 at a world with a persisted dark preference and a light
environment signal: the persisted value wins and flipping the environment
signal does not change the outcome. -/
theorem c6_witness :
    (initTheme c6world).theme = Theme.dark ∧
    (initTheme c6world).applied = some Theme.dark ∧
    initTheme { c6world with prefersDark := true } =
      { initTheme c6world with prefersDark := true } :=
  ⟨((c6_init_reads_persisted_slot c6world).2.1 Theme.dark rfl).1,
    ((c6_init_reads_persisted_slot c6world).2.1 Theme.dark rfl).2.1,
    ((c6_init_reads_persisted_slot c6world).2.1 Theme.dark rfl).2.2 true⟩

/-- C7: an environment-signal change adopts and applies the derived theme iff
no persisted preference exists; with a persisted slot present — in particular
after any toggle — it changes neither the in-memory theme nor the applied
attribute (nor the slot). -/
theorem c7_env_change_iff_no_saved (w : ThemeWorld) (b : Bool) :
    (w.saved = none →
      (onEnvChange w b).theme = envTheme b ∧
      (onEnvChange w b).applied = some (envTheme b)) ∧
    (w.saved ≠ none →
      (onEnvChange w b).theme = w.theme ∧ (onEnvChange w b).applied = w.applied ∧
      (onEnvChange w b).saved = w.saved) ∧
    ((onEnvChange (toggleTheme w) b).theme = (toggleTheme w).theme ∧
      (onEnvChange (toggleTheme w) b).applied = (toggleTheme w).applied ∧
      (onEnvChange (toggleTheme w) b).saved = (toggleTheme w).saved) := by
  refine ⟨?_, ?_, ?_⟩
  · intro hn
    constructor <;> simp [onEnvChange, hn]
  · intro hn
    cases hsv : w.saved with
    | none => exact absurd hsv hn
    | some t0 =>
      refine ⟨?_, ?_, ?_⟩ <;> simp [onEnvChange, hsv]
  · refine ⟨?_, ?_, ?_⟩ <;> simp [onEnvChange, toggleTheme]

def c7world : ThemeWorld := ⟨none, false, Theme.light, none⟩

/-- Witness for C7 at a world with no persisted preference: the environment
change to dark is adopted and applied; and at the same world after a toggle,
the environment change is a no-op. -/
theorem c7_witness :
    ((onEnvChange c7world true).theme = envTheme true ∧
      (onEnvChange c7world true).applied = some (envTheme true)) ∧
    ((onEnvChange (toggleTheme c7world) true).theme = (toggleTheme c7world).theme ∧
      (onEnvChange (toggleTheme c7world) true).applied = (toggleTheme c7world).applied ∧
      (onEnvChange (toggleTheme c7world) true).saved = (toggleTheme c7world).saved) :=
  ⟨(c7_env_change_iff_no_saved c7world true).1 rfl,
    (c7_env_change_iff_no_saved c7world true).2.2⟩

end Portfolio
